import Mathlib

/-!
# Verification of the TodoList task store (`app/services/task_service.py`)

Shallow embedding of the in-memory task store and of the GraphQL
"updateTask" patch construction (`app/graphql/resolvers.py`), together
with proofs of the behavioural properties stated in the specification.

The Python store keeps `self.tasks_data`, a list of dicts each holding
exactly the keys `id`, `title`, `description`, `completed`; we embed a
stored dict and a returned `Task` object as the same structure `Task`.
Python integers are embedded as `Int`.
-/

namespace Todo

/-- A task record: the four fields of the Pydantic `Task` model, which are
also exactly the keys of a stored dict in `tasks_data`. -/
structure Task where
  id : Int
  title : String
  description : String
  completed : Bool
deriving Repr, DecidableEq

/-- Payload of `TaskCreate` (`title`, `description`, `completed` with
default `False`). -/
structure TaskCreate where
  title : String
  description : String
  completed : Bool := false
deriving Repr, DecidableEq

/-- Payload of `TaskUpdate`: all three fields optional, default `None`. -/
structure TaskUpdate where
  title : Option String := none
  description : Option String := none
  completed : Option Bool := none
deriving Repr, DecidableEq

/-- The store state: the `tasks_data` list. A fresh service starts with
`[]`. -/
abbrev StoreState := List Task

/-- The one domain error: `TaskNotFoundException(task_id)`. -/
inductive StoreError where
  | taskNotFound (task_id : Int)
deriving Repr, DecidableEq

namespace TaskService

/-- `get_all_tasks`: rebuild a `Task` from each stored dict, in list
order. -/
def get_all_tasks (s : StoreState) : List Task :=
  s.map (fun t => Task.mk t.id t.title t.description t.completed)

/-- `get_task_by_id`: `next((task for task in self.tasks_data if
task["id"] == task_id), None)`, then rebuild a `Task` from the dict if one
was found. -/
def get_task_by_id (s : StoreState) (task_id : Int) : Option Task :=
  match s.find? (fun t => t.id == task_id) with
  | none => none
  | some t => some (Task.mk t.id t.title t.description t.completed)

/-- `get_task_by_id_or_404`: as `get_task_by_id` but raising
`TaskNotFoundException` on `None`. -/
def get_task_by_id_or_404 (s : StoreState) (task_id : Int) :
    Except StoreError Task :=
  match get_task_by_id s task_id with
  | none => .error (.taskNotFound task_id)
  | some t => .ok t

/-- `new_id = max([task["id"] for task in self.tasks_data], default=0) + 1`
without the `+ 1`: Python's `max(list, default=0)` is the maximum of a
nonempty list and `0` for the empty list. -/
def maxId (s : StoreState) : Int :=
  match s.map (fun t => t.id) with
  | [] => 0
  | x :: xs => xs.foldl max x

/-- `create_task`: compute `new_id`, build the new dict, append it, return
the `Task` built from it.  The result pairs the new store state with the
returned task. -/
def create_task (s : StoreState) (task_data : TaskCreate) :
    StoreState × Task :=
  let new_id := maxId s + 1
  let new_task : Task :=
    Task.mk new_id task_data.title task_data.description task_data.completed
  (s ++ [new_task], Task.mk new_task.id new_task.title new_task.description
    new_task.completed)

/-- The in-place field mutation of `update_task`: each of `title`,
`description`, `completed` is overwritten exactly when the corresponding
`TaskUpdate` field `is not None`. -/
def applyUpdate (t : Task) (task_data : TaskUpdate) : Task :=
  { t with
    title := task_data.title.getD t.title
    description := task_data.description.getD t.description
    completed := task_data.completed.getD t.completed }

/-- `update_task`: find the first dict whose `id` matches; if none, return
`None` with the store untouched; otherwise mutate that dict in place and
return the `Task` built from it. -/
def update_task (s : StoreState) (task_id : Int) (task_data : TaskUpdate) :
    StoreState × Option Task :=
  match s with
  | [] => ([], none)
  | t :: ts =>
    if t.id == task_id then
      let t2 := applyUpdate t task_data
      (t2 :: ts, some (Task.mk t2.id t2.title t2.description t2.completed))
    else
      let r := update_task ts task_id task_data
      (t :: r.1, r.2)

/-- `update_task_or_404`: call `update_task`; on `None` raise
`TaskNotFoundException`.  The store state is whatever `update_task` left. -/
def update_task_or_404 (s : StoreState) (task_id : Int)
    (task_data : TaskUpdate) : StoreState × Except StoreError Task :=
  let r := update_task s task_id task_data
  match r.2 with
  | none => (r.1, .error (.taskNotFound task_id))
  | some t => (r.1, .ok t)

/-- `delete_task`: find the first index whose dict's `id` matches; pop it
and return `True`, or return `False` with the store untouched. -/
def delete_task (s : StoreState) (task_id : Int) : StoreState × Bool :=
  match s with
  | [] => ([], false)
  | t :: ts =>
    if t.id == task_id then (ts, true)
    else
      let r := delete_task ts task_id
      (t :: r.1, r.2)

/-- `delete_task_or_404`: call `delete_task`; on `False` raise
`TaskNotFoundException`, otherwise return the success flag. -/
def delete_task_or_404 (s : StoreState) (task_id : Int) :
    StoreState × Except StoreError Bool :=
  let r := delete_task s task_id
  if r.2 then (r.1, .ok r.2) else (r.1, .error (.taskNotFound task_id))

end TaskService

/-! ## Operation sequences on the store

For the reachability claims we run arbitrary sequences of mutating
operations from the empty store a fresh `TaskService` starts with. -/

/-- A mutating store operation. -/
inductive Op where
  | create (task_data : TaskCreate)
  | update (task_id : Int) (task_data : TaskUpdate)
  | delete (task_id : Int)
deriving Repr, DecidableEq

/-- Apply one operation to a store state, keeping only the state. -/
def applyOp (s : StoreState) : Op → StoreState
  | .create d => (TaskService.create_task s d).1
  | .update i d => (TaskService.update_task s i d).1
  | .delete i => (TaskService.delete_task s i).1

/-- Run a sequence of operations from the empty store. -/
def runOps (ops : List Op) : StoreState :=
  ops.foldl applyOp []

/-- Run a sequence of operations from the empty store, also recording, in
order, every id that `create_task` assigned along the way. -/
def runAssigned (ops : List Op) : StoreState × List Int :=
  ops.foldl
    (fun acc op =>
      match op with
      | .create d =>
        let r := TaskService.create_task acc.1 d
        (r.1, acc.2 ++ [r.2.id])
      | _ => (applyOp acc.1 op, acc.2))
    ([], [])

/-! ## GraphQL layer (`app/graphql/resolvers.py`) -/

/-- `TaskUpdateInput`: GraphQL update input, all fields optional with
default `None` (an omitted input field arrives as `None`). -/
structure TaskUpdateInput where
  title : Option String := none
  description : Option String := none
  completed : Option Bool := none
deriving Repr, DecidableEq

namespace Resolvers

/-- The `update_data` dict built by `Mutation.update_task` and
`Mutation.update_task_strict`: a key is inserted only when the input field
`is not None`; `TaskUpdate(**update_data)` fills missing keys with `None`. -/
def buildTaskUpdate (task_input : TaskUpdateInput) : TaskUpdate :=
  let update_data : TaskUpdate := {}
  let update_data :=
    match task_input.title with
    | some v => { update_data with title := some v }
    | none => update_data
  let update_data :=
    match task_input.description with
    | some v => { update_data with description := some v }
    | none => update_data
  let update_data :=
    match task_input.completed with
    | some v => { update_data with completed := some v }
    | none => update_data
  update_data

/-- `Mutation.update_task`: build the patch from the input and forward it
to the store's `update_task` (the conversion to the GraphQL `Task` type
copies the four fields unchanged). -/
def mutation_update_task (s : StoreState) (task_id : Int)
    (task_input : TaskUpdateInput) : StoreState × Option Task :=
  TaskService.update_task s task_id (buildTaskUpdate task_input)

/-- `Mutation.update_task_strict`: build the patch from the input and
forward it to the store's `update_task_or_404`. -/
def mutation_update_task_strict (s : StoreState) (task_id : Int)
    (task_input : TaskUpdateInput) : StoreState × Except StoreError Task :=
  TaskService.update_task_or_404 s task_id (buildTaskUpdate task_input)

end Resolvers

/-! ## Helper lemmas -/

theorem Task.eta (t : Task) :
    Task.mk t.id t.title t.description t.completed = t := rfl

theorem get_task_by_id_eq_find (s : StoreState) (i : Int) :
    TaskService.get_task_by_id s i = s.find? (fun t => t.id == i) := by
  cases h : s.find? (fun t => t.id == i) with
  | none => simp [TaskService.get_task_by_id, h]
  | some t => simp [TaskService.get_task_by_id, h, Task.eta]

theorem get_all_tasks_eq_id (s : StoreState) :
    TaskService.get_all_tasks s = s := by
  simp [TaskService.get_all_tasks, Task.eta]

theorem le_foldl_max (xs : List Int) (a : Int) : a ≤ xs.foldl max a := by
  induction xs generalizing a with
  | nil => simp
  | cons x xs ih =>
    rw [List.foldl_cons]
    exact le_trans (le_max_left a x) (ih (max a x))

theorem mem_le_foldl_max (xs : List Int) (a b : Int) (h : b ∈ xs) :
    b ≤ xs.foldl max a := by
  induction xs generalizing a with
  | nil => cases h
  | cons x xs ih =>
    rw [List.foldl_cons]
    rcases List.mem_cons.mp h with rfl | h2
    · exact le_trans (le_max_right a b) (le_foldl_max xs (max a b))
    · exact ih (max a x) h2

theorem maxId_ge (s : StoreState) (t : Task) (h : t ∈ s) :
    t.id ≤ TaskService.maxId s := by
  cases s with
  | nil => cases h
  | cons u us =>
    have hm : TaskService.maxId (u :: us)
        = (us.map (fun t => t.id)).foldl max u.id := rfl
    rw [hm]
    rcases List.mem_cons.mp h with rfl | h2
    · exact le_foldl_max _ _
    · exact mem_le_foldl_max _ _ _ (List.mem_map_of_mem _ h2)

theorem applyUpdate_id (t : Task) (d : TaskUpdate) :
    (TaskService.applyUpdate t d).id = t.id := rfl

theorem update_task_ids (s : StoreState) (i : Int) (d : TaskUpdate) :
    (TaskService.update_task s i d).1.map (fun t => t.id)
      = s.map (fun t => t.id) := by
  induction s with
  | nil => rfl
  | cons t ts ih =>
    by_cases h : (t.id == i) = true
    · simp [TaskService.update_task, h, applyUpdate_id]
    · simp [TaskService.update_task, h, ih]

theorem update_task_not_found (s : StoreState) (i : Int) (d : TaskUpdate)
    (h : s.find? (fun t => t.id == i) = none) :
    TaskService.update_task s i d = (s, none) := by
  induction s with
  | nil => rfl
  | cons t ts ih =>
    cases hm : (t.id == i) with
    | true => simp [List.find?_cons, hm] at h
    | false =>
      simp only [List.find?_cons, hm] at h
      simp [TaskService.update_task, hm, ih h]

theorem update_task_found (s : StoreState) (i : Int) (d : TaskUpdate)
    (t : Task) (h : s.find? (fun t => t.id == i) = some t) :
    (TaskService.update_task s i d).2
      = some (TaskService.applyUpdate t d) := by
  induction s with
  | nil => simp at h
  | cons u us ih =>
    cases hm : (u.id == i) with
    | true =>
      simp only [List.find?_cons, hm, Option.some.injEq] at h
      subst h
      simp [TaskService.update_task, hm, Task.eta]
    | false =>
      simp only [List.find?_cons, hm] at h
      simp [TaskService.update_task, hm, ih h]

theorem delete_task_sublist (s : StoreState) (i : Int) :
    (TaskService.delete_task s i).1.Sublist s := by
  induction s with
  | nil => simp [TaskService.delete_task]
  | cons t ts ih =>
    cases hm : (t.id == i) with
    | true =>
      simp only [TaskService.delete_task, hm, if_true]
      exact List.sublist_cons_self t ts
    | false =>
      simp only [TaskService.delete_task, hm, if_false, Bool.false_eq_true]
      exact List.Sublist.cons₂ t ih

theorem delete_task_not_found (s : StoreState) (i : Int)
    (h : s.find? (fun t => t.id == i) = none) :
    TaskService.delete_task s i = (s, false) := by
  induction s with
  | nil => rfl
  | cons t ts ih =>
    cases hm : (t.id == i) with
    | true => simp [List.find?_cons, hm] at h
    | false =>
      simp only [List.find?_cons, hm] at h
      simp [TaskService.delete_task, hm, ih h]

theorem delete_task_no_match (s : StoreState) (i : Int)
    (hnd : (s.map (fun t => t.id)).Nodup)
    (hs : (TaskService.delete_task s i).2 = true) :
    ∀ t ∈ (TaskService.delete_task s i).1, (t.id == i) = false := by
  induction s with
  | nil => simp [TaskService.delete_task] at hs
  | cons u us ih =>
    simp only [List.map_cons, List.nodup_cons] at hnd
    by_cases hm : (u.id == i) = true
    · simp only [TaskService.delete_task, hm, if_true]
      intro t ht
      have hui : u.id = i := by simpa using hm
      have hne : ¬ t.id = u.id := fun he =>
        hnd.1 (he ▸ List.mem_map_of_mem _ ht)
      have hni : ¬ t.id = i := fun he => hne (by rw [he, hui])
      simpa using hni
    · simp only [TaskService.delete_task, hm, if_false] at hs ⊢
      simp only [Bool.false_eq_true, if_false] at hs ⊢
      intro t ht
      rcases List.mem_cons.mp ht with rfl | ht2
      · simpa using hm
      · exact ih hnd.2 hs t ht2

theorem create_task_ids (s : StoreState) (d : TaskCreate) :
    (TaskService.create_task s d).1.map (fun t => t.id)
      = s.map (fun t => t.id) ++ [TaskService.maxId s + 1] := by
  simp [TaskService.create_task]

theorem maxId_succ_not_mem (s : StoreState) :
    TaskService.maxId s + 1 ∉ s.map (fun t => t.id) := by
  intro hmem
  obtain ⟨t, ht, hid⟩ := List.mem_map.mp hmem
  have := maxId_ge s t ht
  omega

theorem ids_nodup_applyOp (s : StoreState) (op : Op)
    (h : (s.map (fun t => t.id)).Nodup) :
    ((applyOp s op).map (fun t => t.id)).Nodup := by
  cases op with
  | create d =>
    rw [show applyOp s (Op.create d) = (TaskService.create_task s d).1
      from rfl, create_task_ids]
    rw [List.nodup_append]
    exact ⟨h, List.nodup_singleton _,
      by simpa [List.disjoint_singleton] using maxId_succ_not_mem s⟩
  | update i d =>
    rw [show applyOp s (Op.update i d) = (TaskService.update_task s i d).1
      from rfl, update_task_ids]
    exact h
  | delete i =>
    exact List.Nodup.sublist
      (List.Sublist.map _ (delete_task_sublist s i)) h

theorem ids_nodup_foldl (ops : List Op) (s : StoreState)
    (h : (s.map (fun t => t.id)).Nodup) :
    ((ops.foldl applyOp s).map (fun t => t.id)).Nodup := by
  induction ops generalizing s with
  | nil => exact h
  | cons op ops ih =>
    rw [List.foldl_cons]
    exact ih (applyOp s op) (ids_nodup_applyOp s op h)

theorem find_append_none {p : Task → Bool} (l₁ l₂ : List Task)
    (h : l₁.find? p = none) :
    (l₁ ++ l₂).find? p = l₂.find? p := by
  induction l₁ with
  | nil => rfl
  | cons t ts ih =>
    cases hm : p t with
    | true => simp [List.find?_cons, hm] at h
    | false =>
      simp only [List.find?_cons, hm] at h
      simp only [List.cons_append, List.find?_cons, hm]
      exact ih h

theorem create_find_none (s : StoreState) (d : TaskCreate) :
    s.find? (fun t => t.id == (TaskService.create_task s d).2.id)
      = none := by
  rw [List.find?_eq_none]
  intro t ht
  have h1 := maxId_ge s t ht
  have h2 : (TaskService.create_task s d).2.id = TaskService.maxId s + 1 :=
    rfl
  simp only [h2]
  simp only [beq_iff_eq]
  omega

theorem update_task_filter (s : StoreState) (i : Int) (d : TaskUpdate) :
    (TaskService.update_task s i d).1.filter (fun t => !(t.id == i))
      = s.filter (fun t => !(t.id == i)) := by
  induction s with
  | nil => rfl
  | cons t ts ih =>
    cases hm : (t.id == i) with
    | true =>
      have hm2 : ((TaskService.applyUpdate t d).id == i) = true := by
        rw [applyUpdate_id]; exact hm
      simp [TaskService.update_task, hm, List.filter_cons, hm2]
    | false =>
      simp [TaskService.update_task, hm, List.filter_cons, ih]

theorem delete_task_filter (s : StoreState) (i : Int) :
    (TaskService.delete_task s i).1.filter (fun t => !(t.id == i))
      = s.filter (fun t => !(t.id == i)) := by
  induction s with
  | nil => rfl
  | cons t ts ih =>
    cases hm : (t.id == i) with
    | true => simp [TaskService.delete_task, hm, List.filter_cons]
    | false => simp [TaskService.delete_task, hm, List.filter_cons, ih]

/-! ## Claim theorems -/

/-- C1 (counterexample): the claim as stated is false.  Running
create("a"), create("b"), delete(2), create("c") from the empty store
assigns the ids 1, 2, 2: the third create's id is not strictly greater
than every previously assigned id, and id 2 is assigned twice (it is
reused after the deletion of the task holding the maximal id). -/
theorem C1_counterexample_id_reassigned :
    (runAssigned [Op.create (TaskCreate.mk "a" "a" false),
        Op.create (TaskCreate.mk "b" "b" false),
        Op.delete 2,
        Op.create (TaskCreate.mk "c" "c" false)]).2 = [1, 2, 2] ∧
    ¬ List.Pairwise (fun a b => a < b)
      (runAssigned [Op.create (TaskCreate.mk "a" "a" false),
        Op.create (TaskCreate.mk "b" "b" false),
        Op.delete 2,
        Op.create (TaskCreate.mk "c" "c" false)]).2 ∧
    ¬ List.Nodup
      (runAssigned [Op.create (TaskCreate.mk "a" "a" false),
        Op.create (TaskCreate.mk "b" "b" false),
        Op.delete 2,
        Op.create (TaskCreate.mk "c" "c" false)]).2 := by
  refine ⟨by decide, by decide, by decide⟩

/-- C1 (amended): each created task's id is strictly greater than the id
of every task present in the store at the moment of creation; after the
task holding the maximal id is deleted, that id can be assigned again. -/
theorem C1_create_id_gt_current (s : StoreState) (d : TaskCreate)
    (t : Task) (h : t ∈ s) :
    t.id < (TaskService.create_task s d).2.id := by
  have h1 := maxId_ge s t h
  have h2 : (TaskService.create_task s d).2.id
      = TaskService.maxId s + 1 := rfl
  omega

/-- C1 witness: in a store holding the single task with id 1, the task
created next receives a strictly greater id. -/
theorem C1_create_id_gt_current_witness :
    (Task.mk 1 "a" "b" false).id
      < (TaskService.create_task [Task.mk 1 "a" "b" false]
          (TaskCreate.mk "c" "d" false)).2.id :=
  C1_create_id_gt_current [Task.mk 1 "a" "b" false]
    (TaskCreate.mk "c" "d" false) (Task.mk 1 "a" "b" false)
    (List.mem_singleton.mpr rfl)

/-- C2: for every store state, id and patch, each soft operation returns
absent (`none`) or `false` exactly when its strict counterpart raises
`TaskNotFoundException`; when the soft operation succeeds the strict one
returns the same payload; and the strict operation leaves the store in the
same state as the soft one. -/
theorem C2_soft_strict_symmetry (s : StoreState) (i : Int)
    (d : TaskUpdate) :
    (TaskService.get_task_by_id s i = none ↔
      TaskService.get_task_by_id_or_404 s i
        = .error (.taskNotFound i)) ∧
    (∀ t, TaskService.get_task_by_id s i = some t ↔
      TaskService.get_task_by_id_or_404 s i = .ok t) ∧
    ((TaskService.update_task s i d).2 = none ↔
      (TaskService.update_task_or_404 s i d).2
        = .error (.taskNotFound i)) ∧
    (∀ t, (TaskService.update_task s i d).2 = some t ↔
      (TaskService.update_task_or_404 s i d).2 = .ok t) ∧
    (TaskService.update_task_or_404 s i d).1
      = (TaskService.update_task s i d).1 ∧
    ((TaskService.delete_task s i).2 = false ↔
      (TaskService.delete_task_or_404 s i).2
        = .error (.taskNotFound i)) ∧
    ((TaskService.delete_task s i).2 = true ↔
      (TaskService.delete_task_or_404 s i).2 = .ok true) ∧
    (TaskService.delete_task_or_404 s i).1
      = (TaskService.delete_task s i).1 := by
  refine ⟨?_, ?_, ?_, ?_, ?_, ?_, ?_, ?_⟩
  · cases hg : TaskService.get_task_by_id s i <;>
      simp [TaskService.get_task_by_id_or_404, hg]
  · intro t
    cases hg : TaskService.get_task_by_id s i <;>
      simp [TaskService.get_task_by_id_or_404, hg]
  · cases hu : (TaskService.update_task s i d).2 <;>
      simp [TaskService.update_task_or_404, hu]
  · intro t
    cases hu : (TaskService.update_task s i d).2 <;>
      simp [TaskService.update_task_or_404, hu]
  · cases hu : (TaskService.update_task s i d).2 <;>
      simp [TaskService.update_task_or_404, hu]
  · cases hb : (TaskService.delete_task s i).2 <;>
      simp [TaskService.delete_task_or_404, hb]
  · cases hb : (TaskService.delete_task s i).2 <;>
      simp [TaskService.delete_task_or_404, hb]
  · cases hb : (TaskService.delete_task s i).2 <;>
      simp [TaskService.delete_task_or_404, hb]

/-- C3: when the store holds a task `t` under the given id, `update_task`
returns a task in which every field present in the patch equals the patch
value, every field absent from the patch equals the value stored in `t`,
and the id equals `t`'s id. -/
theorem C3_partial_update (s : StoreState) (i : Int) (d : TaskUpdate)
    (t : Task) (h : TaskService.get_task_by_id s i = some t) :
    ∃ u, (TaskService.update_task s i d).2 = some u ∧
      u.id = t.id ∧
      (∀ v, d.title = some v → u.title = v) ∧
      (d.title = none → u.title = t.title) ∧
      (∀ v, d.description = some v → u.description = v) ∧
      (d.description = none → u.description = t.description) ∧
      (∀ v, d.completed = some v → u.completed = v) ∧
      (d.completed = none → u.completed = t.completed) := by
  rw [get_task_by_id_eq_find] at h
  refine ⟨TaskService.applyUpdate t d, update_task_found s i d t h, rfl,
    fun v hv => by simp [TaskService.applyUpdate, hv],
    fun hv => by simp [TaskService.applyUpdate, hv],
    fun v hv => by simp [TaskService.applyUpdate, hv],
    fun hv => by simp [TaskService.applyUpdate, hv],
    fun v hv => by simp [TaskService.applyUpdate, hv],
    fun hv => by simp [TaskService.applyUpdate, hv]⟩

/-- C3 witness: on the store holding {id 1, title "A", description "B",
completed false}, the patch {completed := true} yields a task with the
stored title and description and the patched completion flag. -/
theorem C3_partial_update_witness :
    ∃ u, (TaskService.update_task [Task.mk 1 "A" "B" false] 1
        (TaskUpdate.mk none none (some true))).2 = some u ∧
      u.id = (Task.mk 1 "A" "B" false).id ∧
      (∀ v, (TaskUpdate.mk none none (some true)).title = some v →
        u.title = v) ∧
      ((TaskUpdate.mk none none (some true)).title = none →
        u.title = (Task.mk 1 "A" "B" false).title) ∧
      (∀ v, (TaskUpdate.mk none none (some true)).description = some v →
        u.description = v) ∧
      ((TaskUpdate.mk none none (some true)).description = none →
        u.description = (Task.mk 1 "A" "B" false).description) ∧
      (∀ v, (TaskUpdate.mk none none (some true)).completed = some v →
        u.completed = v) ∧
      ((TaskUpdate.mk none none (some true)).completed = none →
        u.completed = (Task.mk 1 "A" "B" false).completed) :=
  C3_partial_update [Task.mk 1 "A" "B" false] 1
    (TaskUpdate.mk none none (some true)) (Task.mk 1 "A" "B" false)
    (by decide)

/-- C4: for every store state and input, `create_task` appends exactly one
task, whose id is `max(existing ids, default 0) + 1` (in particular `1` on
the empty store, and strictly above every id already present) and whose
remaining fields equal the inputs; being a total function it never
fails. -/
theorem C4_create_contract (s : StoreState) (d : TaskCreate) :
    (TaskService.create_task s d).1
      = s ++ [(TaskService.create_task s d).2] ∧
    (TaskService.create_task s d).2.id = TaskService.maxId s + 1 ∧
    (TaskService.create_task s d).2.title = d.title ∧
    (TaskService.create_task s d).2.description = d.description ∧
    (TaskService.create_task s d).2.completed = d.completed ∧
    (∀ t ∈ s, t.id < (TaskService.create_task s d).2.id) ∧
    (s = [] → (TaskService.create_task s d).2.id = 1) := by
  refine ⟨rfl, rfl, rfl, rfl, rfl, ?_, ?_⟩
  · intro t ht
    have h1 := maxId_ge s t ht
    have h2 : (TaskService.create_task s d).2.id
        = TaskService.maxId s + 1 := rfl
    omega
  · rintro rfl
    rfl

/-- C5: when the given id is absent from the store, every lookup, update
and delete operation — soft or strict — leaves the store state exactly as
it was, reporting the absence as `none`, `false` or
`TaskNotFoundException`. -/
theorem C5_error_atomicity (s : StoreState) (i : Int) (d : TaskUpdate)
    (h : TaskService.get_task_by_id s i = none) :
    TaskService.get_task_by_id_or_404 s i = .error (.taskNotFound i) ∧
    TaskService.update_task s i d = (s, none) ∧
    TaskService.update_task_or_404 s i d
      = (s, .error (.taskNotFound i)) ∧
    TaskService.delete_task s i = (s, false) ∧
    TaskService.delete_task_or_404 s i
      = (s, .error (.taskNotFound i)) := by
  have hf : s.find? (fun t => t.id == i) = none := by
    rw [get_task_by_id_eq_find] at h
    exact h
  have hu := update_task_not_found s i d hf
  have hd := delete_task_not_found s i hf
  refine ⟨?_, hu, ?_, hd, ?_⟩
  · simp [TaskService.get_task_by_id_or_404, h]
  · simp [TaskService.update_task_or_404, hu]
  · simp [TaskService.delete_task_or_404, hd]

/-- C5 witness: on the empty store, id 1 is absent and every operation
reports the absence while leaving the store empty. -/
theorem C5_error_atomicity_witness :
    TaskService.get_task_by_id_or_404 [] 1
      = .error (.taskNotFound 1) ∧
    TaskService.update_task [] 1 (TaskUpdate.mk none none none)
      = ([], none) ∧
    TaskService.update_task_or_404 [] 1 (TaskUpdate.mk none none none)
      = ([], .error (.taskNotFound 1)) ∧
    TaskService.delete_task [] 1 = ([], false) ∧
    TaskService.delete_task_or_404 [] 1
      = ([], .error (.taskNotFound 1)) :=
  C5_error_atomicity [] 1 (TaskUpdate.mk none none none) rfl

/-- C6: in every store state reachable from the empty store by a sequence
of create, update and delete operations, no two tasks share an id. -/
theorem C6_ids_nodup_reachable (ops : List Op) :
    ((runOps ops).map (fun t => t.id)).Nodup :=
  ids_nodup_foldl ops [] (by simp)

/-- C7: on any reachable store, once `delete_task` succeeds for an id,
`get_task_by_id` of that id on the resulting store returns `none` and a
second `delete_task` of it returns `false`. -/
theorem C7_delete_terminal (ops : List Op) (i : Int)
    (h : (TaskService.delete_task (runOps ops) i).2 = true) :
    TaskService.get_task_by_id
      (TaskService.delete_task (runOps ops) i).1 i = none ∧
    (TaskService.delete_task
      (TaskService.delete_task (runOps ops) i).1 i).2 = false := by
  have hnd : ((runOps ops).map (fun t => t.id)).Nodup :=
    ids_nodup_foldl ops [] (by simp)
  have hnm := delete_task_no_match (runOps ops) i hnd h
  have hf : (TaskService.delete_task (runOps ops) i).1.find?
      (fun t => t.id == i) = none := by
    rw [List.find?_eq_none]
    intro t ht
    simp [hnm t ht]
  constructor
  · rw [get_task_by_id_eq_find]
    exact hf
  · rw [delete_task_not_found _ i hf]

/-- C7 witness: create one task (id 1), delete it successfully; then the
id is gone and a second delete fails. -/
theorem C7_delete_terminal_witness :
    TaskService.get_task_by_id
      (TaskService.delete_task
        (runOps [Op.create (TaskCreate.mk "a" "b" false)]) 1).1 1
      = none ∧
    (TaskService.delete_task
      (TaskService.delete_task
        (runOps [Op.create (TaskCreate.mk "a" "b" false)]) 1).1 1).2
      = false :=
  C7_delete_terminal [Op.create (TaskCreate.mk "a" "b" false)] 1
    (by decide)

/-- C8: creating a task and then looking up the id of the task returned
by the create yields exactly that task, on every starting store state. -/
theorem C8_create_get_roundtrip (s : StoreState) (d : TaskCreate) :
    TaskService.get_task_by_id (TaskService.create_task s d).1
      (TaskService.create_task s d).2.id
      = some (TaskService.create_task s d).2 := by
  rw [get_task_by_id_eq_find]
  have h1 : (TaskService.create_task s d).1
      = s ++ [(TaskService.create_task s d).2] := rfl
  rw [h1, find_append_none _ _ (create_find_none s d)]
  simp [List.find?_cons]

/-- C9: the updateTask (and updateTaskStrict) mutation forwards each input
field to the store's patch exactly as it arrived — an omitted (`none`)
input field is forwarded as absent — so an omitted field never overwrites
the stored value: whenever the store holds a task `t` under the id and
either mutation returns a task `u`, each omitted input field of `u` still
holds `t`'s value. -/
theorem C9_patch_construction (s : StoreState) (i : Int)
    (inp : TaskUpdateInput) :
    (Resolvers.buildTaskUpdate inp).title = inp.title ∧
    (Resolvers.buildTaskUpdate inp).description = inp.description ∧
    (Resolvers.buildTaskUpdate inp).completed = inp.completed ∧
    (∀ t u, TaskService.get_task_by_id s i = some t →
      ((Resolvers.mutation_update_task s i inp).2 = some u ∨
        (Resolvers.mutation_update_task_strict s i inp).2 = .ok u) →
      (inp.title = none → u.title = t.title) ∧
      (inp.description = none → u.description = t.description) ∧
      (inp.completed = none → u.completed = t.completed)) := by
  obtain ⟨ot, od, oc⟩ := inp
  have hb : Resolvers.buildTaskUpdate (TaskUpdateInput.mk ot od oc)
      = TaskUpdate.mk ot od oc := by
    cases ot <;> cases od <;> cases oc <;> rfl
  refine ⟨by rw [hb], by rw [hb], by rw [hb], ?_⟩
  intro t u hget hor
  rw [get_task_by_id_eq_find] at hget
  have hupd := update_task_found s i (TaskUpdate.mk ot od oc) t hget
  have hu : u = TaskService.applyUpdate t (TaskUpdate.mk ot od oc) := by
    rcases hor with hor | hor
    · have h2 : (TaskService.update_task s i
          (TaskUpdate.mk ot od oc)).2 = some u := by
        have h3 : (Resolvers.mutation_update_task s i
            (TaskUpdateInput.mk ot od oc)).2
            = (TaskService.update_task s i (TaskUpdate.mk ot od oc)).2 := by
          rw [Resolvers.mutation_update_task, hb]
        rw [h3] at hor
        exact hor
      rw [hupd] at h2
      exact (Option.some.inj h2).symm
    · have h3 : (Resolvers.mutation_update_task_strict s i
          (TaskUpdateInput.mk ot od oc)).2
          = (TaskService.update_task_or_404 s i
              (TaskUpdate.mk ot od oc)).2 := by
        rw [Resolvers.mutation_update_task_strict, hb]
      have h4 : (TaskService.update_task_or_404 s i
          (TaskUpdate.mk ot od oc)).2
          = .ok (TaskService.applyUpdate t (TaskUpdate.mk ot od oc)) := by
        simp [TaskService.update_task_or_404, hupd]
      rw [h3, h4] at hor
      exact (Except.ok.inj hor).symm
  subst hu
  refine ⟨fun h0 => ?_, fun h0 => ?_, fun h0 => ?_⟩
  · have hn : ot = none := h0
    simp [TaskService.applyUpdate, hn]
  · have hn : od = none := h0
    simp [TaskService.applyUpdate, hn]
  · have hn : oc = none := h0
    simp [TaskService.applyUpdate, hn]

/-- C10: `update_task` and `delete_task` touch at most the task with the
matching id: the tasks with a different id are exactly the same, in the
same relative order, before and after (stated via `filter`); the store
after a delete is a sublist of the store before; and `get_all_tasks`
returns the resulting backing collection unchanged and in order. -/
theorem C10_frame_property (s : StoreState) (i : Int) (d : TaskUpdate) :
    (TaskService.update_task s i d).1.filter (fun t => !(t.id == i))
      = s.filter (fun t => !(t.id == i)) ∧
    (TaskService.delete_task s i).1.filter (fun t => !(t.id == i))
      = s.filter (fun t => !(t.id == i)) ∧
    (TaskService.delete_task s i).1.Sublist s ∧
    TaskService.get_all_tasks (TaskService.update_task s i d).1
      = (TaskService.update_task s i d).1 ∧
    TaskService.get_all_tasks (TaskService.delete_task s i).1
      = (TaskService.delete_task s i).1 :=
  ⟨update_task_filter s i d, delete_task_filter s i,
    delete_task_sublist s i, get_all_tasks_eq_id _, get_all_tasks_eq_id _⟩

end Todo
